import Mathlib

/-!
Verification development for the costco-price-match core.

This file gives a shallow embedding of the two algorithmic stages of the
repository:

* the receipt line normalizer, `_post_process` in
  `src/services/receipt_parser.py` (noise / quantity-marker filtering,
  TPD-discount folding, quantity sanity check, OCR item-number repair), and
* the deal matcher and deal filter in `src/services/analyzer.py`
  (`_filter_deals` and the classification / best-candidate selection in
  `find_potential_matches`).

Python strings are modelled by Lean `String` (ASCII semantics for case
mapping, exactly as the data handled by the program), Python floats by exact
rationals `ℚ` parsed from their decimal source strings, Python `round` and
f-string 2-decimal formatting by round-half-to-even on `ℚ`, and fallible
Python operations (`float(..)`, `int(..)`) by `Option` / `Except` values.
-/

/-- Decide whether a character is an ASCII decimal digit, as Python's
regex `\d` and `str.isdigit` do for the ASCII range. -/
def isDigitC (c : Char) : Bool := '0' ≤ c && c ≤ '9'

/-- Whitespace characters recognised by Python's `str.strip`, `str.split`
and the regex class `\s` on ASCII input. -/
def wsC (c : Char) : Bool :=
  c == ' ' || c == '\t' || c == '\n' || c == '\r' || c == '\x0b' || c == '\x0c'

/-- Model of Python `str.strip()` (drop leading and trailing whitespace). -/
def trimStr (s : String) : String :=
  String.mk (((s.toList.dropWhile wsC).reverse.dropWhile wsC).reverse)

/-- Model of Python `str.upper()` on ASCII text. -/
def upperStr (s : String) : String := String.mk (s.toList.map Char.toUpper)

/-- Model of Python `str.lower()` on ASCII text. -/
def lowerStr (s : String) : String := String.mk (s.toList.map Char.toLower)

/-- Decide whether `pre` is a prefix of `l`, character by character. -/
def isPrefixL : List Char → List Char → Bool
  | [], _ => true
  | _ :: _, [] => false
  | a :: as, b :: bs => a == b && isPrefixL as bs

/-- Helper for `strContains`: substring occurrence over character lists. -/
def containsSub (hay needle : List Char) : Bool :=
  match hay with
  | [] => needle.isEmpty
  | _ :: t => isPrefixL needle hay || containsSub t needle

/-- Model of Python's substring test `needle in hay`. -/
def strContains (hay needle : String) : Bool := containsSub hay.toList needle.toList

/-- Model of Python `s.startswith(pre)`. -/
def startsWithStr (pre s : String) : Bool := isPrefixL pre.toList s.toList

/-- Model of Python `s.endswith("-")`. -/
def endsWithDash (s : String) : Bool :=
  match s.toList.getLast? with
  | some '-' => true
  | _ => false

/-- Model of Python character slicing `s[k:]` (both count characters). -/
def dropChars (k : Nat) (s : String) : String := String.mk (s.toList.drop k)

/-- Model of Python character slicing `s[:k]`. -/
def takeStr (k : Nat) (s : String) : String := String.mk (s.toList.take k)

/-- Model of Python `s.replace("-", "")`: drop every minus sign. -/
def removeDashes (s : String) : String := String.mk (s.toList.filter (fun c => c != '-'))

/-- Model of Python `s.replace("/", " ")`. -/
def replaceSlash (s : String) : String :=
  String.mk (s.toList.map (fun c => if c == '/' then ' ' else c))

/-- Characters removed by the normalizer's
`price_str.rstrip("abc...XYZ @#*")`: ASCII letters, space, `@`, `#`, `*`. -/
def junkC (c : Char) : Bool :=
  ('a' ≤ c && c ≤ 'z') || ('A' ≤ c && c ≤ 'Z') || c == ' ' || c == '@' || c == '#' || c == '*'

/-- Model of the normalizer's `rstrip` call stripping trailing letters and
noise characters from a price string. -/
def rstripJunk (s : String) : String :=
  String.mk ((s.toList.reverse.dropWhile junkC).reverse)

/-- Helper used by `pySplit`: split a character list on whitespace runs. -/
def splitWsAux : List Char → List Char → List String
  | [], acc => if acc.isEmpty then [] else [String.mk acc.reverse]
  | c :: cs, acc =>
    if wsC c then
      if acc.isEmpty then splitWsAux cs [] else String.mk acc.reverse :: splitWsAux cs []
    else splitWsAux cs (c :: acc)

/-- Model of Python `str.split()` with no separator: split on runs of
whitespace, producing no empty tokens. -/
def pySplit (s : String) : List String := splitWsAux s.toList []

/-- Numeric value of a list of ASCII digits. -/
def digitsToNat (cs : List Char) : ℕ := cs.foldl (fun a c => a * 10 + (c.toNat - 48)) 0

/-- Syntactic phase of the model of Python `float(s)`: accept optional
surrounding whitespace, an optional sign, then digits with at most one
decimal point and at least one digit overall, returning the sign and the
integer and fractional digit runs.  Exponent, underscore and `inf`/`nan`
forms are treated as unparseable. -/
def decParse (s : String) : Option (Bool × List Char × List Char) :=
  let cs := (trimStr s).toList
  let sgn : Bool × List Char :=
    match cs with
    | '-' :: r => (true, r)
    | '+' :: r => (false, r)
    | _ => (false, cs)
  let ip := sgn.2.takeWhile isDigitC
  let r1 := sgn.2.dropWhile isDigitC
  match r1 with
  | [] => if ip.isEmpty then none else some (sgn.1, ip, [])
  | '.' :: r2 =>
    let fp := r2.takeWhile isDigitC
    let r3 := r2.dropWhile isDigitC
    if r3.isEmpty && !(ip.isEmpty && fp.isEmpty) then some (sgn.1, ip, fp) else none
  | _ => none

/-- Value phase of the model of Python `float(s)`: the exact rational a
parsed decimal literal denotes. -/
def decVal (t : Bool × List Char × List Char) : ℚ :=
  let mag : ℚ := (digitsToNat t.2.1 : ℚ) + (digitsToNat t.2.2 : ℚ) / (10 ^ t.2.2.length : ℚ)
  if t.1 then -mag else mag

/-- Model of Python `float(s)` on plain decimal literals, as the exact
rational value of the literal. -/
def pyFloat (s : String) : Option ℚ := (decParse s).map decVal

/-- Model of Python `int(s)` on decimal strings: optional surrounding
whitespace, optional sign, then one or more digits (underscored forms are
treated as unparseable). -/
def pyInt (s : String) : Option ℤ :=
  let cs := (trimStr s).toList
  let sgn : Bool × List Char :=
    match cs with
    | '-' :: r => (true, r)
    | '+' :: r => (false, r)
    | _ => (false, cs)
  if !sgn.2.isEmpty && sgn.2.all isDigitC then
    some (if sgn.1 then -(digitsToNat sgn.2 : ℤ) else (digitsToNat sgn.2 : ℤ))
  else none

/-- Round half to even (banker's rounding) on rationals, modelling Python's
`round` and float formatting on exact decimal values. -/
def rhe (x : ℚ) : ℤ :=
  if x - ⌊x⌋ < 1 / 2 then ⌊x⌋
  else if 1 / 2 < x - ⌊x⌋ then ⌊x⌋ + 1
  else if ⌊x⌋ % 2 = 0 then ⌊x⌋ else ⌊x⌋ + 1

/-- Model of Python `round(x, 2)` on exact decimal rationals. -/
def round2 (x : ℚ) : ℚ := (rhe (x * 100) : ℚ) / 100

/-- Two-digit zero padding for the fractional part of a formatted price. -/
def pad2 (n : ℕ) : String := if n < 10 then "0" ++ toString n else toString n

/-- Model of Python `f"{x:.2f}"` on exact decimal rationals: round the value
to whole cents (half to even) and print it with exactly two decimals. -/
def fmt2 (x : ℚ) : String :=
  let n := rhe (x * 100)
  let m := n.natAbs
  let body := toString (m / 100) ++ "." ++ pad2 (m % 100)
  if n < 0 then "-" ++ body else body

/-- A raw extracted receipt line, as handed to `_post_process`: the four
text fields produced by the extraction step (`name`, `price`, `qty`,
`item_number`), each an arbitrary string. -/
structure RawItem where
  name : String
  price : String
  qty : String
  item_number : String
deriving DecidableEq

/-- A normalized receipt item as produced by `_post_process`: the four line
fields plus the `tpd` flag and `original_price` set by the fold pass. -/
structure Item where
  name : String
  price : String
  qty : String
  item_number : String
  tpd : Bool
  original_price : String
deriving DecidableEq

/-- Model of the anchored regex `^(\d+)\s*@\s*[\d.]+` applied to a line
name: a run of digits, optional whitespace, `@`, optional whitespace, then
at least one digit or dot; returns the captured digit run. -/
def qtyMarker (name : String) : Option String :=
  let cs := name.toList
  let ds := cs.takeWhile isDigitC
  if ds.isEmpty then none
  else
    match (cs.drop ds.length).dropWhile wsC with
    | '@' :: r =>
      match r.dropWhile wsC with
      | c :: _ => if isDigitC c || c == '.' then some (String.mk ds) else none
      | [] => none
    | _ => none

/-- Helper for `noiseMatch`: the regex fragment `\d+\s*LIT` anchored at the
start of `cs`. -/
def digitsThenLit (lit : List Char) (cs : List Char) : Bool :=
  let ds := cs.takeWhile isDigitC
  if ds.isEmpty then false else isPrefixL lit ((cs.drop ds.length).dropWhile wsC)

/-- Helper for `noiseMatch`: the regex fragment `\d+\s*@\s*[\d.]+` anchored
at the start of `cs`. -/
def qtyPat (cs : List Char) : Bool :=
  let ds := cs.takeWhile isDigitC
  if ds.isEmpty then false
  else
    match (cs.drop ds.length).dropWhile wsC with
    | '@' :: r =>
      match r.dropWhile wsC with
      | c :: _ => isDigitC c || c == '.'
      | [] => false
    | _ => false

/-- Model of the case-insensitive noise regex
`^(AGE\s*VERIFIED|DEPOSIT|L\d+\s*MEMBER|N\d+\s*MEMBER|\d+\s*@\s*[\d.]+)`
anchored at the start of the (already stripped) line name. -/
def noiseMatch (name : String) : Bool :=
  let cs := (upperStr name).toList
  (match cs with
   | 'A' :: 'G' :: 'E' :: r => isPrefixL "VERIFIED".toList (r.dropWhile wsC)
   | _ => false) ||
  isPrefixL "DEPOSIT".toList cs ||
  (match cs with
   | 'L' :: r => digitsThenLit "MEMBER".toList r
   | _ => false) ||
  (match cs with
   | 'N' :: r => digitsThenLit "MEMBER".toList r
   | _ => false) ||
  qtyPat cs

/-- First pass of `_post_process`: drop quantity-marker lines (remembering
the multiplier), noise lines and zero-price non-TPD lines, and assign a
pending multiplier to the next non-TPD line. -/
def cleanPass : List RawItem → Option String → List RawItem
  | [], _ => []
  | it :: rest, pending =>
    let name := trimStr it.name
    let price_str := trimStr it.price
    match qtyMarker name with
    | some q => cleanPass rest (some q)
    | none =>
      if noiseMatch name then cleanPass rest pending
      else if !strContains (upperStr name) "TPD/" &&
              (price_str == "" || price_str == "0" || price_str == "0.00") then
        cleanPass rest pending
      else
        match pending with
        | some q =>
          if strContains (upperStr name) "TPD/" then it :: cleanPass rest (some q)
          else { it with qty := q } :: cleanPass rest none
        | none => it :: cleanPass rest none

/-- The cleaned magnitude of a line's price: strip surrounding whitespace,
then trailing letters and noise characters (`rstrip`). -/
def cleanPrice (line : RawItem) : String := rstripJunk (trimStr line.price)

/-- Whether the fold pass treats a line as a discount line: the name
contains the TPD marker (case-insensitively) or the cleaned price ends in a
minus sign. -/
def isDiscountLine (line : RawItem) : Bool :=
  strContains (upperStr line.name) "TPD/" || endsWithDash (cleanPrice line)

/-- The OCR-confusable character class `[\dOoBbIlSsGg]` of the item-number
repair regex. -/
def ocrClassC (c : Char) : Bool :=
  isDigitC c || c == 'O' || c == 'o' || c == 'B' || c == 'b' || c == 'I' || c == 'l' ||
    c == 'S' || c == 's' || c == 'G' || c == 'g'

/-- Model of the anchored regex `^([\dOoBbIlSsGg]{4,8})\s+` on a name: the
maximal leading run of class characters must have length 4 to 8 and be
followed by a whitespace character; returns the matched token. -/
def ocrToken (n : String) : Option String :=
  if 4 ≤ (n.toList.takeWhile ocrClassC).length && (n.toList.takeWhile ocrClassC).length ≤ 8 then
    match n.toList.drop (n.toList.takeWhile ocrClassC).length with
    | c :: _ => if wsC c then some (String.mk (n.toList.takeWhile ocrClassC)) else none
    | [] => none
  else none

/-- The confusable-letter translation table
`str.maketrans("OoBbIlSsGg", "0088115599")`. -/
def trOcrC (c : Char) : Char :=
  if c == 'O' || c == 'o' then '0'
  else if c == 'B' || c == 'b' then '8'
  else if c == 'I' || c == 'l' then '1'
  else if c == 'S' || c == 's' then '5'
  else if c == 'G' || c == 'g' then '9'
  else c

/-- Apply the confusable-letter translation to a whole token. -/
def trOcr (s : String) : String := String.mk (s.toList.map trOcrC)

/-- The token-adoption step of item-number recovery, for a line whose
`item_number` is empty: if the name starts with an OCR token whose
translation is all digits, adopt the translation and strip the token (plus
surrounding whitespace) from the name; otherwise leave both unchanged. -/
def adoptToken (n : String) : String × String :=
  match ocrToken n with
  | some raw =>
    let fixed := trOcr raw
    if fixed != "" && fixed.toList.all isDigitC then
      (trimStr (dropChars raw.length n), fixed)
    else (n, "")
  | none => (n, "")

/-- The item-number repair of `_post_process` on a (name, item_number)
pair: token adoption when the number is empty, clearing of implausible
numbers longer than 8 characters, and stripping of a leading literal
item-number from the name. -/
def fixNumber (n num : String) : String × String :=
  let p1 := if num == "" then adoptToken n else (n, num)
  let p2 := if p1.2 != "" && 8 < p1.2.length then (p1.1, "") else p1
  if p2.2 != "" && startsWithStr p2.2 p2.1 then
    (trimStr (dropChars p2.2.length p2.1), p2.2)
  else p2

/-- Finalize a surviving non-discount line as a normalized item: clean the
price, default `tpd`/`original_price`, apply the quantity divisibility
check, and run item-number repair. -/
def finalizeItem (line : RawItem) : Item :=
  let price1 := removeDashes (cleanPrice line)
  let qty' :=
    match pyInt line.qty, pyFloat price1 with
    | some q, some p =>
      if 1 < q ∧ 1 / 1000 < |p / (q : ℚ) - round2 (p / (q : ℚ))| then "1" else line.qty
    | _, _ => line.qty
  let nn := fixNumber line.name line.item_number
  { name := nn.1, price := price1, qty := qty', item_number := nn.2,
    tpd := false, original_price := "" }

/-- One step of the fold pass of `_post_process`: a discount line folds
into the last finalized item when both amounts parse and the discount is
strictly smaller (and yields no item of its own; on a failed parse or an
oversized discount the accumulated items are left untouched, the Python
`try`/`except ValueError: pass`); any other line is finalized and
appended. -/
def mergeStep (merged : List Item) (line : RawItem) : List Item :=
  if isDiscountLine line && !merged.isEmpty then
    match merged.getLast? with
    | some prev =>
      match pyFloat (removeDashes (cleanPrice line)), pyFloat prev.price with
      | some discount, some orig =>
        if discount < orig then
          let upd : Item :=
            { prev with
                original_price := prev.price
                price := fmt2 (orig - discount)
                tpd := true }
          merged.dropLast ++ [upd]
        else merged
      | _, _ => merged
    | none => merged
  else merged ++ [finalizeItem line]

/-- The whole `_post_process` normalizer: the cleaning pass followed by the
fold pass. -/
def post_process (items : List RawItem) : List Item :=
  List.foldl mergeStep [] (cleanPass items none)

/-- Model of Python `float(..)` with its `ValueError` behaviour made
explicit for the exception analysis of `_post_process`. -/
def floatE (s : String) : Except String ℚ :=
  match pyFloat s with
  | some q => Except.ok q
  | none => Except.error "ValueError"

/-- Model of Python `int(..)` with its `ValueError` behaviour made
explicit for the exception analysis of `_post_process`. -/
def intE (s : String) : Except String ℤ :=
  match pyInt s with
  | some n => Except.ok n
  | none => Except.error "ValueError"

/-- One step of the fold pass with Python's exception flow made explicit:
the exact places `_post_process` wraps in `try`/`except` catch the error and
fall through; everywhere else an error would propagate. -/
def mergeStepE (merged : List Item) (line : RawItem) : Except String (List Item) :=
  if isDiscountLine line && !merged.isEmpty then
    match merged.getLast? with
    | some prev =>
      match (do
          let discount ← floatE (removeDashes (cleanPrice line))
          let orig ← floatE prev.price
          pure (discount, orig) : Except String (ℚ × ℚ)) with
      | Except.ok dp =>
        Except.ok (if dp.1 < dp.2 then
          merged.dropLast ++
            [{ prev with original_price := prev.price, price := fmt2 (dp.2 - dp.1), tpd := true }]
        else merged)
      | Except.error _ => Except.ok merged
    | none => Except.ok merged
  else
    let price1 := removeDashes (cleanPrice line)
    match (do
        let q ← intE line.qty
        let p ← floatE price1
        pure (if 1 < q ∧ 1 / 1000 < |p / (q : ℚ) - round2 (p / (q : ℚ))| then "1" else line.qty)
        : Except String String) with
    | Except.ok qty' =>
      let nn := fixNumber line.name line.item_number
      let itm : Item :=
        { name := nn.1, price := price1, qty := qty', item_number := nn.2,
          tpd := false, original_price := "" }
      Except.ok (merged ++ [itm])
    | Except.error _ =>
      let nn := fixNumber line.name line.item_number
      let itm : Item :=
        { name := nn.1, price := price1, qty := line.qty, item_number := nn.2,
          tpd := false, original_price := "" }
      Except.ok (merged ++ [itm])

/-- The `_post_process` normalizer with the exception flow made explicit. -/
def post_processE (items : List RawItem) : Except String (List Item) :=
  List.foldlM mergeStepE [] (cleanPass items none)

/-- A deal record as read back from storage by the matcher.  `item_name`
and `sale_price` are accessed unconditionally by the code; the remaining
fields are read with `dict.get` defaults, so an absent key is modelled by
`none`. -/
structure Deal where
  item_name : String
  sale_price : String
  item_number : Option String
  promo_end : Option String
  scanned_date : Option String
  source : Option String
  link : Option String
deriving DecidableEq

/-- A receipt item as flattened by `find_potential_matches` before
matching. -/
structure RItem where
  name : String
  price : String
  original_price : String
  item_number : String
  receipt_date : String
  tpd : Bool
deriving DecidableEq

/-- The three match tiers of the matcher (the Python strings
`"exact_item_number"`, `"partial_item_number"`, `"name_keyword"`). -/
inductive MatchedBy
  | exactNum
  | nearNum
  | nameKw
deriving DecidableEq

/-- The tier rank used for tie-breaking:
`{"exact_item_number": 3, "partial_item_number": 2, "name_keyword": 1}`. -/
def tierRank : MatchedBy → ℕ
  | .exactNum => 3
  | .nearNum => 2
  | .nameKw => 1

/-- The matcher's stop-list of name tokens that never count as keywords. -/
def skipWords : List String :=
  ["the", "and", "for", "with", "pack", "size", "sizes", "plus", "mens", "womens"]

/-- Keyword extraction from a receipt item name: lowercase, replace `/` by
space, split on whitespace, keep tokens of length at least 4 that are not
stop words. -/
def keywords (name : String) : List String :=
  (pySplit (replaceSlash (lowerStr name))).filter
    (fun w => decide (4 ≤ w.length) && !skipWords.contains w)

/-- The first match rule: both item numbers present and equal. -/
def exactCond (ri : RItem) (d : Deal) : Prop :=
  ri.item_number ≠ "" ∧ d.item_number.getD "" ≠ "" ∧ ri.item_number = d.item_number.getD ""

/-- The second match rule: both item numbers present, of length at least 5,
with equal first five characters. -/
def near5Cond (ri : RItem) (d : Deal) : Prop :=
  ri.item_number ≠ "" ∧ d.item_number.getD "" ≠ "" ∧
    5 ≤ ri.item_number.length ∧ 5 ≤ (d.item_number.getD "").length ∧
    takeStr 5 ri.item_number = takeStr 5 (d.item_number.getD "")

/-- The first keyword rule: at least two keywords, at least two of which
occur in the lowercased deal name. -/
def kw2Cond (ri : RItem) (d : Deal) : Prop :=
  2 ≤ (keywords ri.name).length ∧
    2 ≤ (keywords ri.name).countP (fun w => strContains (lowerStr d.item_name) w)

/-- The second keyword rule: exactly one keyword, of length at least 5,
occurring in the lowercased deal name. -/
def kw1Cond (ri : RItem) (d : Deal) : Prop :=
  (keywords ri.name).length = 1 ∧ 5 ≤ ((keywords ri.name).headD "").length ∧
    strContains (lowerStr d.item_name) ((keywords ri.name).headD "") = true

instance (ri : RItem) (d : Deal) : Decidable (exactCond ri d) := by
  unfold exactCond; infer_instance

instance (ri : RItem) (d : Deal) : Decidable (near5Cond ri d) := by
  unfold near5Cond; infer_instance

instance (ri : RItem) (d : Deal) : Decidable (kw2Cond ri d) := by
  unfold kw2Cond; infer_instance

instance (ri : RItem) (d : Deal) : Decidable (kw1Cond ri d) := by
  unfold kw1Cond; infer_instance

/-- Classification of a (receipt item, deal) pair by the first satisfied
rule, in the matcher's fixed order. -/
def classify (ri : RItem) (d : Deal) : Option MatchedBy :=
  if exactCond ri d then some .exactNum
  else if near5Cond ri d then some .nearNum
  else if kw2Cond ri d then some .nameKw
  else if kw1Cond ri d then some .nameKw
  else none

/-- A match candidate as appended to `ri_matches` (with its `_rank` field
recoverable as `tierRank matched_by`). -/
structure Cand where
  receipt_item : String
  receipt_price : String
  original_price : String
  receipt_item_number : String
  receipt_date : String
  tpd_at_purchase : Bool
  deal_name : String
  deal_price : String
  deal_item_number : String
  deal_source : String
  deal_link : String
  deal_expiry : String
  matched_by : MatchedBy
  savings : ℚ
deriving DecidableEq

/-- Build the candidate record for a matched pair. -/
def mkCand (ri : RItem) (d : Deal) (mb : MatchedBy) (s : ℚ) : Cand :=
  { receipt_item := ri.name, receipt_price := ri.price, original_price := ri.original_price,
    receipt_item_number := ri.item_number, receipt_date := ri.receipt_date,
    tpd_at_purchase := ri.tpd, deal_name := d.item_name, deal_price := d.sale_price,
    deal_item_number := d.item_number.getD "", deal_source := d.source.getD "",
    deal_link := d.link.getD "", deal_expiry := d.promo_end.getD "",
    matched_by := mb, savings := s }

/-- The candidate a single deal contributes for a receipt item: classify,
then require both prices to parse and the deal price to be strictly below
the paid price; the savings are the rounded difference. -/
def dealCand (ri : RItem) (d : Deal) : Option Cand :=
  match classify ri d with
  | none => none
  | some mb =>
    match pyFloat ri.price, pyFloat d.sale_price with
    | some paid, some deal =>
      if paid ≤ deal then none
      else some (mkCand ri d mb (round2 (paid - deal)))
    | _, _ => none

/-- The strict comparison used by the best-candidate selection: Python's
tuple order on `(savings, _rank)`. -/
def candKeyLt (a b : Cand) : Bool :=
  decide (a.savings < b.savings) ||
    (a.savings == b.savings && decide (tierRank a.matched_by < tierRank b.matched_by))

/-- One step of Python's `max(..., key=...)`: keep the current best unless
the next candidate is strictly greater. -/
def betterCand (b x : Cand) : Cand := if candKeyLt b x then x else b

/-- Python's `max(list, key=...)` (first maximal element), or `none` on an
empty list. -/
def pickBest : List Cand → Option Cand
  | [] => none
  | c :: cs => some (cs.foldl betterCand c)

/-- The single candidate kept for one receipt item against a deal pool. -/
def bestMatch (drops : List Deal) (ri : RItem) : Option Cand :=
  pickBest (drops.filterMap (dealCand ri))

/-- Lexicographic code-point comparison of strings, as Python compares
date strings. -/
def listLeC : List Char → List Char → Bool
  | [], _ => true
  | _ :: _, [] => false
  | a :: as, b :: bs => if a < b then true else if b < a then false else listLeC as bs

/-- Model of Python string comparison `a <= b`. -/
def strLe (a b : String) : Bool := listLeC a.toList b.toList

/-- Stable insertion of a candidate into a date-sorted list. -/
def sortInsert (c : Cand) : List Cand → List Cand
  | [] => [c]
  | x :: xs => if strLe c.receipt_date x.receipt_date then c :: x :: xs else x :: sortInsert c xs

/-- The stable sort by `receipt_date` applied to the collected candidates. -/
def sortByDate (l : List Cand) : List Cand := l.foldr sortInsert []

/-- The whole pre-filter `find_potential_matches`: one best candidate per
receipt item, sorted by receipt date. -/
def find_potential_matches (receipt_items : List RItem) (drops : List Deal) : List Cand :=
  sortByDate (receipt_items.filterMap (bestMatch drops))

/-- The key the deal filter compares against `dateFrom`:
`d.get("promo_end") or d.get("scanned_date", "")[:10]`. -/
def effFromKey (d : Deal) : String :=
  if d.promo_end.getD "" != "" then d.promo_end.getD ""
  else takeStr 10 (d.scanned_date.getD "")

/-- The key the deal filter compares against `dateTo`:
`d.get("scanned_date", "")[:10] or d.get("promo_end", "9999")`. -/
def effToKey (d : Deal) : String :=
  if takeStr 10 (d.scanned_date.getD "") != "" then takeStr 10 (d.scanned_date.getD "")
  else d.promo_end.getD "9999"

/-- The deal filter `_filter_deals`, with the ambient module globals passed
explicitly: an absent or falsy filter value (`none`, empty string, empty
source list) disables its stage. -/
def filter_deals (df dt : Option String) (srcs : Option (List String))
    (drops : List Deal) : List Deal :=
  let f1 :=
    match srcs with
    | some l => if l.isEmpty then drops else drops.filter (fun d => l.contains (d.source.getD ""))
    | none => drops
  let f2 :=
    match df with
    | some s => if s == "" then f1 else f1.filter (fun d => strLe s (effFromKey d))
    | none => f1
  match dt with
  | some s => if s == "" then f2 else f2.filter (fun d => strLe (effToKey d) s)
  | none => f2

/-- The deal filter as the specification describes it, for comparison with
`filter_deals`: one shared effective date, `promo_end` if present else the
scan date, checked against both bounds. -/
def filterDealsSpec (df dt : Option String) (srcs : Option (List String))
    (drops : List Deal) : List Deal :=
  drops.filter (fun d =>
    (match srcs with
     | some l => if l.isEmpty then true else l.contains (d.source.getD "")
     | none => true) &&
    (match df with
     | some s => if s == "" then true else strLe s (effFromKey d)
     | none => true) &&
    (match dt with
     | some s => if s == "" then true else strLe (effFromKey d) s
     | none => true))

/-- The source stage of the deal filter as a single predicate: a deal
passes when no nonempty source list is given or its source is listed. -/
def keepSrc (srcs : Option (List String)) (d : Deal) : Bool :=
  match srcs with
  | some l => if l.isEmpty then true else l.contains (d.source.getD "")
  | none => true

/-- The `dateFrom` stage of the deal filter as a single predicate. -/
def keepFrom (df : Option String) (d : Deal) : Bool :=
  match df with
  | some s => if s == "" then true else strLe s (effFromKey d)
  | none => true

/-- The `dateTo` stage of the deal filter as a single predicate. -/
def keepTo (dt : Option String) (d : Deal) : Bool :=
  match dt with
  | some s => if s == "" then true else strLe (effToKey d) s
  | none => true

/-- The lexicographic comparison on `(savings, tier rank)` that the best
match must dominate: `a` is at most `b` when `a` has smaller savings, or
equal savings and a tier rank at most that of `b`. -/
def lexLeCand (a b : Cand) : Prop :=
  a.savings < b.savings ∨
    (a.savings = b.savings ∧ tierRank a.matched_by ≤ tierRank b.matched_by)

/-- Concrete finalized item used to exercise the fold theorems. -/
def prevW : Item :=
  { name := "WIDGET", price := "10.00", qty := "1", item_number := "1234567",
    tpd := false, original_price := "" }

/-- Concrete TPD discount line with magnitude 3 used for the fold. -/
def lineW : RawItem :=
  { name := "TPD/1234567", price := "3.00-", qty := "1", item_number := "" }

/-- Concrete TPD discount line with magnitude 12, exceeding `prevW`. -/
def lineW7 : RawItem :=
  { name := "TPD/1234567", price := "12.00-", qty := "1", item_number := "" }

/-- Concrete discount line used as the first surviving line. -/
def lineW10 : RawItem :=
  { name := "TPD/123", price := "3.00-", qty := "1", item_number := "" }

/-- Concrete line with quantity 3 and price 10.00 for the quantity check. -/
def lineW8 : RawItem :=
  { name := "THING", price := "10.00", qty := "3", item_number := "1234567" }

/-- Concrete receipt item matching both sample deals below. -/
def riW2 : RItem :=
  { name := "widget gadget", price := "30.00", original_price := "",
    item_number := "1234567", receipt_date := "2024-01-01", tpd := false }

/-- Deal matching `riW2` by partial item number, with savings 5. -/
def dW2near : Deal :=
  { item_name := "OTHER", sale_price := "25.00", item_number := some "1234599",
    promo_end := none, scanned_date := none, source := none, link := none }

/-- Deal matching `riW2` by name keywords, with savings 6. -/
def dW2kw : Deal :=
  { item_name := "super widget gadget deal", sale_price := "24.00", item_number := none,
    promo_end := none, scanned_date := none, source := none, link := none }

/-- The candidate the partial-number deal contributes for `riW2`. -/
def candW2near : Cand := mkCand riW2 dW2near .nearNum 5

/-- The candidate the keyword deal contributes for `riW2`. -/
def candW2kw : Cand := mkCand riW2 dW2kw .nameKw 6

/-- Concrete receipt item paid 25.00, for the savings theorem. -/
def riW3 : RItem :=
  { name := "GADGETRON", price := "25.00", original_price := "",
    item_number := "7654321", receipt_date := "", tpd := false }

/-- Deal priced 20.00 matching `riW3` exactly. -/
def dW3 : Deal :=
  { item_name := "GADGETRON DEAL", sale_price := "20.00", item_number := some "7654321",
    promo_end := none, scanned_date := none, source := none, link := none }

/-- Deal priced 29.99 matching `riW3` exactly but costing more than paid. -/
def dW3bad : Deal :=
  { item_name := "GADGETRON DEAL", sale_price := "29.99", item_number := some "7654321",
    promo_end := none, scanned_date := none, source := none, link := none }

/-- The candidate `dW3` contributes for `riW3`. -/
def candW3 : Cand := mkCand riW3 dW3 .exactNum 5

/-- Receipt item paid 25.004, a legal three-decimal price string. -/
def riX3 : RItem :=
  { name := "ODDITY", price := "25.004", original_price := "",
    item_number := "9999999", receipt_date := "", tpd := false }

/-- Deal priced 25.001 matching `riX3` exactly: cheaper than paid, but the
rounded savings are zero. -/
def dX3 : Deal :=
  { item_name := "ODDITY DEAL", sale_price := "25.001", item_number := some "9999999",
    promo_end := none, scanned_date := none, source := none, link := none }

/-- The zero-savings candidate `dX3` contributes for `riX3`. -/
def candX3 : Cand := mkCand riX3 dX3 .exactNum 0

/-- Deal whose `promo_end` (2024-01-10) and scan date (2024-06-15) straddle
a `dateTo` bound of 2024-03-01, separating the two effective-date keys. -/
def dX4 : Deal :=
  { item_name := "SOMETHING", sale_price := "10.00", item_number := none,
    promo_end := some "2024-01-10", scanned_date := some "2024-06-15T12:00:00",
    source := some "cocowest", link := none }

/-- Deal inside all the sample filter bounds. -/
def dW4 : Deal :=
  { item_name := "OTHERTHING", sale_price := "5.00", item_number := none,
    promo_end := some "2024-05-01", scanned_date := some "2024-04-01T00:00:00",
    source := some "cocoeast", link := none }

/-- Receipt item whose number shares its first five characters with `dW5`. -/
def riW5 : RItem :=
  { name := "KIRKLAND SOCKS", price := "15.00", original_price := "",
    item_number := "1234567", receipt_date := "", tpd := false }

/-- Deal matched by `riW5` through the partial item-number rule. -/
def dW5 : Deal :=
  { item_name := "NOPE", sale_price := "1.00", item_number := some "1234511",
    promo_end := none, scanned_date := none, source := none, link := none }

theorem decVal_false (ip fp : List Char) :
    decVal (false, ip, fp) = (digitsToNat ip : ℚ) + (digitsToNat fp : ℚ) / (10 ^ fp.length : ℚ) :=
  rfl

theorem pyFloat_of_parse {s : String} {b : Bool} {ip fp : List Char}
    (h : decParse s = some (b, ip, fp)) : pyFloat s = some (decVal (b, ip, fp)) := by
  unfold pyFloat
  rw [h]
  rfl

theorem pyFloat_1000 : pyFloat "10.00" = some 10 := by
  rw [pyFloat_of_parse (by decide : decParse "10.00" = some (false, ['1', '0'], ['0', '0']))]
  norm_num [decVal_false, (by decide : digitsToNat ['1', '0'] = 10),
    (by decide : digitsToNat ['0', '0'] = 0)]

theorem pyFloat_300 : pyFloat "3.00" = some 3 := by
  rw [pyFloat_of_parse (by decide : decParse "3.00" = some (false, ['3'], ['0', '0']))]
  norm_num [decVal_false, (by decide : digitsToNat ['3'] = 3),
    (by decide : digitsToNat ['0', '0'] = 0)]

theorem pyFloat_1200 : pyFloat "12.00" = some 12 := by
  rw [pyFloat_of_parse (by decide : decParse "12.00" = some (false, ['1', '2'], ['0', '0']))]
  norm_num [decVal_false, (by decide : digitsToNat ['1', '2'] = 12),
    (by decide : digitsToNat ['0', '0'] = 0)]

theorem pyFloat_2500 : pyFloat "25.00" = some 25 := by
  rw [pyFloat_of_parse (by decide : decParse "25.00" = some (false, ['2', '5'], ['0', '0']))]
  norm_num [decVal_false, (by decide : digitsToNat ['2', '5'] = 25),
    (by decide : digitsToNat ['0', '0'] = 0)]

theorem pyFloat_2000 : pyFloat "20.00" = some 20 := by
  rw [pyFloat_of_parse (by decide : decParse "20.00" = some (false, ['2', '0'], ['0', '0']))]
  norm_num [decVal_false, (by decide : digitsToNat ['2', '0'] = 20),
    (by decide : digitsToNat ['0', '0'] = 0)]

theorem pyFloat_3000 : pyFloat "30.00" = some 30 := by
  rw [pyFloat_of_parse (by decide : decParse "30.00" = some (false, ['3', '0'], ['0', '0']))]
  norm_num [decVal_false, (by decide : digitsToNat ['3', '0'] = 30),
    (by decide : digitsToNat ['0', '0'] = 0)]

theorem pyFloat_2400 : pyFloat "24.00" = some 24 := by
  rw [pyFloat_of_parse (by decide : decParse "24.00" = some (false, ['2', '4'], ['0', '0']))]
  norm_num [decVal_false, (by decide : digitsToNat ['2', '4'] = 24),
    (by decide : digitsToNat ['0', '0'] = 0)]

theorem pyFloat_2999 : pyFloat "29.99" = some (2999 / 100) := by
  rw [pyFloat_of_parse (by decide : decParse "29.99" = some (false, ['2', '9'], ['9', '9']))]
  norm_num [decVal_false, (by decide : digitsToNat ['2', '9'] = 29),
    (by decide : digitsToNat ['9', '9'] = 99)]

theorem pyFloat_25004 : pyFloat "25.004" = some (25004 / 1000) := by
  rw [pyFloat_of_parse
    (by decide : decParse "25.004" = some (false, ['2', '5'], ['0', '0', '4']))]
  norm_num [decVal_false, (by decide : digitsToNat ['2', '5'] = 25),
    (by decide : digitsToNat ['0', '0', '4'] = 4)]

theorem pyFloat_25001 : pyFloat "25.001" = some (25001 / 1000) := by
  rw [pyFloat_of_parse
    (by decide : decParse "25.001" = some (false, ['2', '5'], ['0', '0', '1']))]
  norm_num [decVal_false, (by decide : digitsToNat ['2', '5'] = 25),
    (by decide : digitsToNat ['0', '0', '1'] = 1)]

theorem rhe_intCast (n : ℤ) : rhe (n : ℚ) = n := by
  unfold rhe
  rw [Int.floor_intCast]
  norm_num

theorem rhe_nonneg {x : ℚ} (h : 0 ≤ x) : 0 ≤ rhe x := by
  have h0 : (0 : ℤ) ≤ ⌊x⌋ := Int.floor_nonneg.mpr h
  unfold rhe
  split_ifs <;> omega

theorem round2_nonneg {x : ℚ} (h : 0 ≤ x) : 0 ≤ round2 x := by
  unfold round2
  have h1 : (0 : ℤ) ≤ rhe (x * 100) := rhe_nonneg (by positivity)
  have h2 : (0 : ℚ) ≤ (rhe (x * 100) : ℚ) := by exact_mod_cast h1
  positivity

theorem round2_cents (n : ℤ) : round2 ((n : ℚ) / 100) = (n : ℚ) / 100 := by
  unfold round2
  rw [show ((n : ℚ) / 100) * 100 = (n : ℚ) by field_simp, rhe_intCast]

/-- C1: whenever the fold pass meets a discount line (TPD marker in the
name, case-insensitively, or cleaned price ending in a minus) whose
magnitude `D` parses, and the most recently finalized item's price parses
to `P` with `D < P`, the step rewrites that item to the 2-decimal formatted
`P - D`, keeps the old price string in `original_price`, sets `tpd`, and
appends no item for the discount line itself. -/
theorem C1_fold_rewrites (ms : List Item) (prev : Item) (line : RawItem) (D P : ℚ)
    (hd : isDiscountLine line = true)
    (hD : pyFloat (removeDashes (cleanPrice line)) = some D)
    (hP : pyFloat prev.price = some P)
    (hDP : D < P) :
    mergeStep (ms ++ [prev]) line =
      ms ++ [{ prev with original_price := prev.price, price := fmt2 (P - D), tpd := true }] := by
  have hne : ((ms ++ [prev]).isEmpty) = false := by simp
  have h1 : (ms ++ [prev]).getLast? = some prev := by simp
  have h2 : (ms ++ [prev]).dropLast = ms := by simp
  simp [mergeStep, hd, hne, h1, h2, hD, hP, hDP]

/-- C7: when the discount magnitude is at least the preceding item's price,
the fold step leaves the accumulated items completely unchanged and the
discount line produces no output item. -/
theorem C7_fold_skip (ms : List Item) (prev : Item) (line : RawItem) (D P : ℚ)
    (hd : isDiscountLine line = true)
    (hD : pyFloat (removeDashes (cleanPrice line)) = some D)
    (hP : pyFloat prev.price = some P)
    (hPD : P ≤ D) :
    mergeStep (ms ++ [prev]) line = ms ++ [prev] := by
  have hne : ((ms ++ [prev]).isEmpty) = false := by simp
  have h1 : (ms ++ [prev]).getLast? = some prev := by simp
  have h2 : (ms ++ [prev]).dropLast = ms := by simp
  have h3 : ¬ D < P := not_lt.mpr hPD
  simp [mergeStep, hd, hne, h1, h2, hD, hP, h3]

/-- C8: for a finalized line whose quantity parses as an integer above 1
and whose cleaned price parses, the quantity survives exactly when the
price divides into that many equal 2-decimal parts within the 0.001
tolerance, and is reset to "1" otherwise. -/
theorem C8_qty_reset (line : RawItem) (q : ℤ) (p : ℚ)
    (hq : pyInt line.qty = some q) (h1 : 1 < q)
    (hp : pyFloat (removeDashes (cleanPrice line)) = some p) :
    (finalizeItem line).qty =
      if 1 / 1000 < |p / (q : ℚ) - round2 (p / (q : ℚ))| then "1" else line.qty := by
  simp [finalizeItem, hq, hp, h1]

theorem ocrToken_len {n raw : String} (h : ocrToken n = some raw) :
    4 ≤ raw.length ∧ raw.length ≤ 8 := by
  unfold ocrToken at h
  split at h
  · rename_i hlen
    split at h
    · split at h
      · cases h
        simp only [Bool.and_eq_true, decide_eq_true_eq] at hlen
        simpa [String.length] using hlen
      · cases h
    · cases h
  · cases h

theorem str_bne_empty {s : String} (h : 0 < s.length) : (s != "") = true := by
  cases he : s == "" with
  | true =>
    have hs : s = "" := eq_of_beq he
    rw [hs] at h
    simp at h
  | false => simp [bne, he]

theorem trOcr_len (s : String) : (trOcr s).length = s.length := by
  show (s.toList.map trOcrC).length = s.length
  rw [List.length_map]
  rfl

/-- C6: the item-number repair of the normalizer.  When `item_number` is
empty and the name starts with a 4-to-8 character OCR token followed by
whitespace whose confusable-letter translation is all digits, the
translation is adopted and the token stripped from the name; a nonempty
item number longer than 8 characters is cleared; a name still starting
with the literal item number has that prefix stripped; `finalizeItem`
applies exactly this repair; and the concrete example behaves as the
specification states. -/
theorem C6_number_repair :
    (∀ n raw, ocrToken n = some raw → (trOcr raw).toList.all isDigitC = true →
        adoptToken n = (trimStr (dropChars raw.length n), trOcr raw)) ∧
    (∀ n num, num ≠ "" → 8 < num.length → fixNumber n num = (n, "")) ∧
    (∀ n num, num ≠ "" → num.length ≤ 8 → startsWithStr num n = true →
        fixNumber n num = (trimStr (dropChars num.length n), num)) ∧
    (∀ line, (finalizeItem line).name = (fixNumber line.name line.item_number).1 ∧
        (finalizeItem line).item_number = (fixNumber line.name line.item_number).2) ∧
    fixNumber "O123456 WIDGET" "" = ("WIDGET", "0123456") := by
  refine ⟨?_, ?_, ?_, fun line => ⟨rfl, rfl⟩, by decide⟩
  · intro n raw h hall
    have hlen := (ocrToken_len h).1
    have hne : (trOcr raw != "") = true :=
      str_bne_empty (by rw [trOcr_len]; omega)
    have hcond : (trOcr raw != "" && (trOcr raw).toList.all isDigitC) = true := by
      rw [hne, hall]
      rfl
    simp only [adoptToken, h, hcond]
    rfl
  · intro n num h1 h2
    simp [fixNumber, h1, h2]
  · intro n num h1 h2 h3
    have hb2 : ¬ (8 : ℕ) < num.length := not_lt.mpr h2
    simp [fixNumber, h1, hb2, h3]

theorem mergeStepE_ok (merged : List Item) (line : RawItem) :
    mergeStepE merged line = Except.ok (mergeStep merged line) := by
  unfold mergeStepE mergeStep
  by_cases hg : (isDiscountLine line && !merged.isEmpty) = true
  · rw [if_pos hg, if_pos hg]
    cases hl : merged.getLast? with
    | none => rfl
    | some prev =>
      cases hD : pyFloat (removeDashes (cleanPrice line)) with
      | none => simp [floatE, hD, Bind.bind, Except.bind]
      | some D =>
        cases hP : pyFloat prev.price with
        | none => simp [floatE, hD, hP, Bind.bind, Except.bind]
        | some P =>
          simp [floatE, hD, hP, Bind.bind, Except.bind, Pure.pure, Except.pure]
  · rw [if_neg hg, if_neg hg]
    cases hq : pyInt line.qty with
    | none => simp [intE, hq, Bind.bind, Except.bind, finalizeItem]
    | some q =>
      cases hp : pyFloat (removeDashes (cleanPrice line)) with
      | none => simp [intE, floatE, hq, hp, Bind.bind, Except.bind, finalizeItem]
      | some p =>
        simp [intE, floatE, hq, hp, Bind.bind, Except.bind, Pure.pure, Except.pure,
          finalizeItem]

theorem foldlM_mergeStepE (l : List RawItem) (acc : List Item) :
    List.foldlM mergeStepE acc l = Except.ok (List.foldl mergeStep acc l) := by
  induction l generalizing acc with
  | nil => rfl
  | cons x xs ih =>
    rw [List.foldlM_cons, mergeStepE_ok]
    simp only [List.foldl_cons]
    rw [show ∀ (a : List Item) (f : List Item → Except String (List Item)),
        (Except.ok a >>= f) = f a from fun a f => rfl]
    exact ih (mergeStep acc x)

/-- C9: on every input list of raw lines, the normalizer with its exception
flow made explicit returns normally, with the normal result: no exception
escapes `_post_process`, malformed numeric fields only suppress the local
fold or quantity adjustment. -/
theorem C9_never_raises (items : List RawItem) :
    post_processE items = Except.ok (post_process items) := by
  unfold post_processE post_process
  exact foldlM_mergeStepE (cleanPass items none) []

theorem mergeStep_length_ge (merged : List Item) (line : RawItem) :
    merged.length ≤ (mergeStep merged line).length := by
  unfold mergeStep
  split
  · rename_i hg
    have hlen : 1 ≤ merged.length := by
      cases merged with
      | nil => simp at hg
      | cons a t => simp
    split
    · split
      · split
        · simp only [List.length_append, List.length_dropLast, List.length_cons,
            List.length_nil]
          omega
        · exact Nat.le.refl
      · exact Nat.le.refl
    · exact Nat.le.refl
  · simp

theorem foldl_mergeStep_length (l : List RawItem) (acc : List Item) :
    acc.length ≤ (List.foldl mergeStep acc l).length := by
  induction l generalizing acc with
  | nil => exact le_refl _
  | cons x xs ih =>
    calc acc.length ≤ (mergeStep acc x).length := mergeStep_length_ge acc x
    _ ≤ (List.foldl mergeStep (mergeStep acc x) xs).length := ih (mergeStep acc x)
    _ = (List.foldl mergeStep acc (x :: xs)).length := by rw [List.foldl_cons]

/-- C10: when the first surviving line of the cleaning pass is itself a
discount line with no previously finalized item, the fold pass does not
drop it: the line is finalized as a regular item (with `tpd = false`,
empty `original_price`, and the minus signs stripped from its cleaned
price) that seeds the rest of the fold, and the output list is nonempty. -/
theorem C10_leading_discount (items : List RawItem) (line : RawItem) (rest : List RawItem)
    (h : cleanPass items none = line :: rest) (hd : isDiscountLine line = true) :
    post_process items = List.foldl mergeStep [finalizeItem line] rest ∧
    (finalizeItem line).tpd = false ∧
    (finalizeItem line).original_price = "" ∧
    (finalizeItem line).price = removeDashes (cleanPrice line) ∧
    ('-' ∉ (finalizeItem line).price.toList) ∧
    post_process items ≠ [] := by
  have hstep : mergeStep [] line = [finalizeItem line] := by
    unfold mergeStep
    simp
  have hpp : post_process items = List.foldl mergeStep [finalizeItem line] rest := by
    unfold post_process
    rw [h, List.foldl_cons, hstep]
  refine ⟨hpp, rfl, rfl, rfl, ?_, ?_⟩
  · show '-' ∉ ((removeDashes (cleanPrice line)).toList)
    unfold removeDashes
    intro hmem
    have := List.mem_filter.mp hmem
    simp at this
  · rw [hpp]
    have h1 : 1 ≤ (List.foldl mergeStep [finalizeItem line] rest).length := by
      have := foldl_mergeStep_length rest [finalizeItem line]
      simpa using this
    intro hnil
    rw [hnil] at h1
    simp at h1

theorem lexLeCand_refl (a : Cand) : lexLeCand a a := Or.inr ⟨rfl, le_refl _⟩

theorem lexLeCand_trans {a b c : Cand} (h1 : lexLeCand a b) (h2 : lexLeCand b c) :
    lexLeCand a c := by
  rcases h1 with h1 | ⟨h1e, h1r⟩
  · rcases h2 with h2 | ⟨h2e, h2r⟩
    · exact Or.inl (lt_trans h1 h2)
    · exact Or.inl (h2e ▸ h1)
  · rcases h2 with h2 | ⟨h2e, h2r⟩
    · exact Or.inl (h1e ▸ h2)
    · exact Or.inr ⟨h1e.trans h2e, le_trans h1r h2r⟩

theorem candKeyLt_lt {b x : Cand} (h : candKeyLt b x = true) : lexLeCand b x := by
  simp only [candKeyLt, Bool.or_eq_true, Bool.and_eq_true, decide_eq_true_eq,
    beq_iff_eq] at h
  rcases h with h | ⟨he, hr⟩
  · exact Or.inl h
  · exact Or.inr ⟨he, le_of_lt hr⟩

theorem candKeyLt_ge {b x : Cand} (h : candKeyLt b x = false) : lexLeCand x b := by
  have h' : ¬ (candKeyLt b x = true) := by simp [h]
  simp only [candKeyLt, Bool.or_eq_true, Bool.and_eq_true, decide_eq_true_eq,
    beq_iff_eq, not_or, not_and] at h'
  obtain ⟨h1, h2⟩ := h'
  rcases lt_or_eq_of_le (le_of_not_lt h1) with hlt | heq
  · exact Or.inl hlt
  · exact Or.inr ⟨heq, le_of_not_lt (fun hr => h2 heq.symm hr)⟩

theorem betterCand_le_left (b x : Cand) : lexLeCand b (betterCand b x) := by
  unfold betterCand
  cases h : candKeyLt b x with
  | true =>
    simp only [if_true]
    exact candKeyLt_lt h
  | false =>
    simp only [Bool.false_eq_true, if_false]
    exact lexLeCand_refl b

theorem betterCand_le_right (b x : Cand) : lexLeCand x (betterCand b x) := by
  unfold betterCand
  cases h : candKeyLt b x with
  | true =>
    simp only [if_true]
    exact lexLeCand_refl x
  | false =>
    simp only [Bool.false_eq_true, if_false]
    exact candKeyLt_ge h

theorem betterCand_mem (b x : Cand) : betterCand b x = b ∨ betterCand b x = x := by
  unfold betterCand
  cases h : candKeyLt b x <;> simp

theorem foldl_better_mem (l : List Cand) (c : Cand) :
    l.foldl betterCand c = c ∨ l.foldl betterCand c ∈ l := by
  induction l generalizing c with
  | nil => exact Or.inl rfl
  | cons x xs ih =>
    rw [List.foldl_cons]
    rcases ih (betterCand c x) with h | h
    · rcases betterCand_mem c x with hb | hb
      · exact Or.inl (h.trans hb)
      · refine Or.inr ?_
        rw [h, hb]
        exact List.mem_cons_self x xs
    · exact Or.inr (List.mem_cons_of_mem x h)

theorem foldl_better_le (l : List Cand) (c : Cand) :
    lexLeCand c (l.foldl betterCand c) ∧ ∀ x ∈ l, lexLeCand x (l.foldl betterCand c) := by
  induction l generalizing c with
  | nil => exact ⟨lexLeCand_refl c, by simp⟩
  | cons y ys ih =>
    rw [List.foldl_cons]
    obtain ⟨h1, h2⟩ := ih (betterCand c y)
    refine ⟨lexLeCand_trans (betterCand_le_left c y) h1, ?_⟩
    intro x hx
    rcases List.mem_cons.mp hx with hx1 | hx2
    · rw [hx1]
      exact lexLeCand_trans (betterCand_le_right c y) h1
    · exact h2 x hx2

theorem sortInsert_length (c : Cand) (l : List Cand) :
    (sortInsert c l).length = l.length + 1 := by
  induction l with
  | nil => rfl
  | cons x xs ih =>
    unfold sortInsert
    split
    · simp
    · simp [ih]

theorem sortByDate_length (l : List Cand) : (sortByDate l).length = l.length := by
  unfold sortByDate
  induction l with
  | nil => rfl
  | cons x xs ih => simp [List.foldr_cons, sortInsert_length, ih]

/-- C2: the matcher keeps at most one candidate per receipt item (the
output has at most one entry per input item), and the kept candidate is a
genuine candidate of that item that dominates every other candidate of the
item in the lexicographic `(savings, tier rank)` order — so higher savings
beat a higher tier; when no deal survives classification and the price
check, no candidate is kept. -/
theorem C2_single_best (drops : List Deal) (ri : RItem) :
    (∀ ris : List RItem, (find_potential_matches ris drops).length ≤ ris.length) ∧
    (bestMatch drops ri = none → drops.filterMap (dealCand ri) = []) ∧
    (∀ c, bestMatch drops ri = some c →
      c ∈ drops.filterMap (dealCand ri) ∧
      ∀ c₂ ∈ drops.filterMap (dealCand ri), lexLeCand c₂ c) := by
  refine ⟨?_, ?_, ?_⟩
  · intro ris
    unfold find_potential_matches
    rw [sortByDate_length]
    exact List.length_filterMap_le _ _
  · intro h
    unfold bestMatch at h
    cases hfm : drops.filterMap (dealCand ri) with
    | nil => rfl
    | cons a t =>
      rw [hfm] at h
      simp [pickBest] at h
  · intro c hc
    unfold bestMatch at hc
    cases hfm : drops.filterMap (dealCand ri) with
    | nil =>
      rw [hfm] at hc
      simp [pickBest] at hc
    | cons a t =>
      rw [hfm] at hc
      simp only [pickBest, Option.some.injEq] at hc
      obtain ⟨h1, h2⟩ := foldl_better_le t a
      constructor
      · rw [← hc]
        rcases foldl_better_mem t a with h | h
        · rw [h]
          exact List.mem_cons_self a t
        · exact List.mem_cons_of_mem a h
      · intro c₂ hc₂
        rw [← hc]
        rcases List.mem_cons.mp hc₂ with hx1 | hx2
        · rw [hx1]
          exact h1
        · exact h2 _ hx2

/-- C5: the matcher classifies a (receipt item, deal) pair by the first
satisfied rule in the fixed order exact item number, then shared 5-digit
item-number prefix, then keyword overlap (two shared keywords, or a single
long keyword), else no match; `keywords` extracts the tokens exactly as the
stop-list recipe states. -/
theorem C5_classification (ri : RItem) (d : Deal) :
    (classify ri d = some .exactNum ↔ exactCond ri d) ∧
    (classify ri d = some .nearNum ↔ ¬ exactCond ri d ∧ near5Cond ri d) ∧
    (classify ri d = some .nameKw ↔
      ¬ exactCond ri d ∧ ¬ near5Cond ri d ∧ (kw2Cond ri d ∨ kw1Cond ri d)) ∧
    (classify ri d = none ↔
      ¬ exactCond ri d ∧ ¬ near5Cond ri d ∧ ¬ kw2Cond ri d ∧ ¬ kw1Cond ri d) := by
  by_cases h1 : exactCond ri d <;> by_cases h2 : near5Cond ri d <;>
    by_cases h3 : kw2Cond ri d <;> by_cases h4 : kw1Cond ri d <;>
    simp [classify, h1, h2, h3, h4]

/-- C3 (amended): every emitted candidate has the deal price strictly below
the paid price and savings equal to the rounded difference, which is
nonnegative, and strictly positive whenever both prices are whole-cent
amounts; a deal costing at least the paid price, or an unparseable price,
never produces a candidate. -/
theorem C3_savings_bounds :
    (∀ ri d c paid deal, pyFloat ri.price = some paid →
      pyFloat d.sale_price = some deal → dealCand ri d = some c →
      deal < paid ∧ c.savings = round2 (paid - deal) ∧ 0 ≤ c.savings ∧
      ((∃ pm : ℤ, (pm : ℚ) = 100 * paid) → (∃ dm : ℤ, (dm : ℚ) = 100 * deal) →
        0 < c.savings)) ∧
    (∀ ri d paid deal, pyFloat ri.price = some paid →
      pyFloat d.sale_price = some deal → paid ≤ deal → dealCand ri d = none) ∧
    (∀ ri d, pyFloat ri.price = none ∨ pyFloat d.sale_price = none →
      dealCand ri d = none) := by
  refine ⟨?_, ?_, ?_⟩
  · intro ri d c paid deal hp hd hc
    unfold dealCand at hc
    cases hcl : classify ri d with
    | none =>
      rw [hcl] at hc
      simp at hc
    | some mb =>
      rw [hcl, hp, hd] at hc
      by_cases hle : paid ≤ deal
      · simp [hle] at hc
      · simp only [hle, if_false, Option.some.injEq] at hc
        have hlt : deal < paid := lt_of_not_le hle
        have hcc : c = mkCand ri d mb (round2 (paid - deal)) := hc.symm
        refine ⟨hlt, by rw [hcc]; rfl, ?_, ?_⟩
        · rw [hcc]
          show (0 : ℚ) ≤ round2 (paid - deal)
          exact round2_nonneg (by linarith)
        · rintro ⟨pm, hpm⟩ ⟨dm, hdm⟩
          rw [hcc]
          show 0 < round2 (paid - deal)
          have hsub1 : (pm : ℚ) - dm = 100 * (paid - deal) := by
            rw [hpm, hdm]
            ring
          have hsub : paid - deal = ((pm - dm : ℤ) : ℚ) / 100 := by
            push_cast
            linarith
          have hdmpm : dm < pm := by
            have h100 : (dm : ℚ) < pm := by
              rw [hpm, hdm]
              have : (0 : ℚ) < 100 := by norm_num
              exact (mul_lt_mul_left this).mpr hlt
            exact_mod_cast h100
          rw [hsub, round2_cents]
          have hge1 : (1 : ℤ) ≤ pm - dm := by omega
          have hge1q : (1 : ℚ) ≤ ((pm - dm : ℤ) : ℚ) := by exact_mod_cast hge1
          have : (0 : ℚ) < ((pm - dm : ℤ) : ℚ) := by linarith
          positivity
  · intro ri d paid deal hp hd hle
    unfold dealCand
    cases hcl : classify ri d with
    | none => rfl
    | some mb => simp [hp, hd, hle]
  · intro ri d h
    unfold dealCand
    cases hcl : classify ri d with
    | none => rfl
    | some mb =>
      rcases h with h | h
      · rw [h]
      · rw [h]
        cases pyFloat ri.price <;> rfl

/-- C4 (amended): the deal filter keeps exactly the deals that pass the
source test and both date-bound tests, where the `dateFrom` bound is
checked against `promo_end` if nonempty else the truncated scan date
(`effFromKey`), while the `dateTo` bound is checked against the truncated
scan date if nonempty else `promo_end` defaulting to "9999" (`effToKey`):
the two bounds use different effective-date keys. -/
theorem C4_filter_keeps (df dt : Option String) (srcs : Option (List String))
    (drops : List Deal) :
    filter_deals df dt srcs drops =
      drops.filter (fun d => keepSrc srcs d && keepFrom df d && keepTo dt d) := by
  have hsrc : ∀ l : List Deal,
      (match srcs with
       | some s => if s.isEmpty then l else l.filter (fun d => s.contains (d.source.getD ""))
       | none => l) = l.filter (fun d => keepSrc srcs d) := by
    intro l
    cases srcs with
    | none => simp [keepSrc]
    | some s => by_cases h : s.isEmpty <;> simp [keepSrc, h]
  have hfrom : ∀ l : List Deal,
      (match df with
       | some s => if s == "" then l else l.filter (fun d => strLe s (effFromKey d))
       | none => l) = l.filter (fun d => keepFrom df d) := by
    intro l
    cases df with
    | none => simp [keepFrom]
    | some s => by_cases h : s == "" <;> simp [keepFrom, h]
  have hto : ∀ l : List Deal,
      (match dt with
       | some s => if s == "" then l else l.filter (fun d => strLe (effToKey d) s)
       | none => l) = l.filter (fun d => keepTo dt d) := by
    intro l
    cases dt with
    | none => simp [keepTo]
    | some s => by_cases h : s == "" <;> simp [keepTo, h]
  simp only [filter_deals]
  rw [hsrc, hfrom, hto, List.filter_filter, List.filter_filter]
  refine List.filter_congr ?_
  intro d _
  cases keepSrc srcs d <;> cases keepFrom df d <;> cases keepTo dt d <;> rfl

/-- C4 counterexample: on a deal whose `promo_end` is 2024-01-10 but whose
scan date is 2024-06-15, a `dateTo` bound of 2024-03-01 keeps the deal
under the specification's single effective-date key, while the code drops
it because its `dateTo` bound reads the scan date first. -/
theorem C4_counterexample :
    filterDealsSpec none (some "2024-03-01") none [dX4] = [dX4] ∧
    filter_deals none (some "2024-03-01") none [dX4] = [] := by
  exact ⟨rfl, rfl⟩

theorem round2_of_eq_cents (k : ℤ) (x : ℚ) (h : x = (k : ℚ) / 100) :
    round2 x = (k : ℚ) / 100 := by
  rw [h, round2_cents]

theorem fmt2_7 : fmt2 ((10 : ℚ) - 3) = "7.00" := by
  have hr : rhe (((10 : ℚ) - 3) * 100) = 700 := by
    rw [show (((10 : ℚ) - 3) * 100) = ((700 : ℤ) : ℚ) by norm_num]
    exact rhe_intCast 700
  unfold fmt2
  simp only [hr]
  rfl

theorem round2_five : round2 ((30 : ℚ) - 25) = 5 := by
  rw [round2_of_eq_cents 500 ((30 : ℚ) - 25) (by norm_num)]
  norm_num

theorem round2_five' : round2 ((25 : ℚ) - 20) = 5 := by
  rw [round2_of_eq_cents 500 ((25 : ℚ) - 20) (by norm_num)]
  norm_num

theorem round2_six : round2 ((30 : ℚ) - 24) = 6 := by
  rw [round2_of_eq_cents 600 ((30 : ℚ) - 24) (by norm_num)]
  norm_num

theorem round2_tiny : round2 (25004 / 1000 - 25001 / 1000 : ℚ) = 0 := by
  have hx : ((25004 / 1000 - 25001 / 1000 : ℚ) * 100) = 3 / 10 := by norm_num
  have hf : ⌊(3 / 10 : ℚ)⌋ = 0 := by
    rw [Int.floor_eq_iff]
    norm_num
  have hr : rhe ((25004 / 1000 - 25001 / 1000 : ℚ) * 100) = 0 := by
    unfold rhe
    rw [hx, hf]
    norm_num
  unfold round2
  rw [hr]
  norm_num

theorem round2_third : round2 ((10 : ℚ) / 3) = 333 / 100 := by
  have hx : ((10 : ℚ) / 3 * 100) = 1000 / 3 := by norm_num
  have hf : ⌊(1000 / 3 : ℚ)⌋ = 333 := by
    rw [Int.floor_eq_iff]
    norm_num
  have hr : rhe ((10 : ℚ) / 3 * 100) = 333 := by
    unfold rhe
    rw [hx, hf]
    norm_num
  unfold round2
  rw [hr]
  norm_num

theorem dealCand_near : dealCand riW2 dW2near = some candW2near := by
  have hcl : classify riW2 dW2near = some MatchedBy.nearNum := by decide
  have hp : pyFloat riW2.price = some 30 := pyFloat_3000
  have hd : pyFloat dW2near.sale_price = some 25 := pyFloat_2500
  have hne : ¬ (30 : ℚ) ≤ 25 := by norm_num
  unfold dealCand
  rw [hcl]
  simp only [hp, hd, hne, if_false, round2_five]
  rfl

theorem dealCand_kw : dealCand riW2 dW2kw = some candW2kw := by
  have hcl : classify riW2 dW2kw = some MatchedBy.nameKw := by decide
  have hp : pyFloat riW2.price = some 30 := pyFloat_3000
  have hd : pyFloat dW2kw.sale_price = some 24 := pyFloat_2400
  have hne : ¬ (30 : ℚ) ≤ 24 := by norm_num
  unfold dealCand
  rw [hcl]
  simp only [hp, hd, hne, if_false, round2_six]
  rfl

theorem dealCand_exact : dealCand riW3 dW3 = some candW3 := by
  have hcl : classify riW3 dW3 = some MatchedBy.exactNum := by decide
  have hp : pyFloat riW3.price = some 25 := pyFloat_2500
  have hd : pyFloat dW3.sale_price = some 20 := pyFloat_2000
  have hne : ¬ (25 : ℚ) ≤ 20 := by norm_num
  unfold dealCand
  rw [hcl]
  simp only [hp, hd, hne, if_false, round2_five']
  rfl

/-- C3 counterexample: with paid price "25.004" and deal price "25.001"
(both parseable, deal strictly cheaper) the matcher emits a candidate whose
savings round to exactly zero, so "savings strictly positive" fails as a
universal claim. -/
theorem C3_counterexample :
    dealCand riX3 dX3 = some candX3 ∧ ¬ (0 < candX3.savings) := by
  constructor
  · have hcl : classify riX3 dX3 = some MatchedBy.exactNum := by decide
    have hp : pyFloat riX3.price = some (25004 / 1000) := pyFloat_25004
    have hd : pyFloat dX3.sale_price = some (25001 / 1000) := pyFloat_25001
    have hne : ¬ (25004 / 1000 : ℚ) ≤ 25001 / 1000 := by norm_num
    unfold dealCand
    rw [hcl]
    simp only [hp, hd, hne, if_false, round2_tiny]
    rfl
  · show ¬ (0 < (0 : ℚ))
    norm_num

theorem candKeyLt_near_kw : candKeyLt candW2near candW2kw = true := by
  have h56 : decide ((5 : ℚ) < 6) = true := decide_eq_true (by norm_num)
  show (decide ((5 : ℚ) < 6) ||
    ((5 : ℚ) == 6 && decide (tierRank MatchedBy.nearNum < tierRank MatchedBy.nameKw))) = true
  rw [h56]
  rfl

theorem bestMatch_W2 : bestMatch [dW2near, dW2kw] riW2 = some candW2kw := by
  unfold bestMatch
  rw [List.filterMap_cons, dealCand_near, List.filterMap_cons, dealCand_kw,
    List.filterMap_nil]
  show some (List.foldl betterCand candW2near [candW2kw]) = some candW2kw
  rw [List.foldl_cons, List.foldl_nil]
  unfold betterCand
  rw [candKeyLt_near_kw]
  rfl

theorem C1_witness :
    mergeStep [prevW] lineW =
      [{ name := "WIDGET", price := "7.00", qty := "1", item_number := "1234567",
         tpd := true, original_price := "10.00" }] := by
  have hD : pyFloat (removeDashes (cleanPrice lineW)) = some 3 := pyFloat_300
  have hP : pyFloat prevW.price = some 10 := pyFloat_1000
  have h := C1_fold_rewrites [] prevW lineW 3 10 (by decide) hD hP (by norm_num)
  exact h.trans (by rw [fmt2_7]; rfl)

theorem C7_witness : mergeStep [prevW] lineW7 = [prevW] := by
  have hD : pyFloat (removeDashes (cleanPrice lineW7)) = some 12 := pyFloat_1200
  have hP : pyFloat prevW.price = some 10 := pyFloat_1000
  exact C7_fold_skip [] prevW lineW7 12 10 (by decide) hD hP (by norm_num)

theorem C2_witness :
    candW2kw ∈ [dW2near, dW2kw].filterMap (dealCand riW2) ∧
    lexLeCand candW2near candW2kw := by
  have h := (C2_single_best [dW2near, dW2kw] riW2).2.2 candW2kw bestMatch_W2
  refine ⟨h.1, h.2 candW2near ?_⟩
  rw [List.filterMap_cons, dealCand_near]
  exact List.mem_cons_self _ _

theorem C3_witness :
    (0 : ℚ) < candW3.savings ∧ dealCand riW3 dW3bad = none := by
  have hp : pyFloat riW3.price = some 25 := pyFloat_2500
  have hd : pyFloat dW3.sale_price = some 20 := pyFloat_2000
  have hdbad : pyFloat dW3bad.sale_price = some (2999 / 100) := pyFloat_2999
  constructor
  · exact (C3_savings_bounds.1 riW3 dW3 candW3 25 20 hp hd dealCand_exact).2.2.2
      ⟨2500, by norm_num⟩ ⟨2000, by norm_num⟩
  · exact C3_savings_bounds.2.1 riW3 dW3bad 25 (2999 / 100) hp hdbad (by norm_num)

theorem C4_witness :
    filter_deals (some "2024-01-01") (some "2024-12-31") (some ["cocoeast"])
      [dX4, dW4] = [dW4] := by
  rw [C4_filter_keeps]
  decide

theorem C5_witness : classify riW5 dW5 = some MatchedBy.nearNum :=
  ((C5_classification riW5 dW5).2.1).mpr (by decide)

theorem C6_witness : adoptToken "O123456 WIDGET" = ("WIDGET", "0123456") := by
  have h := C6_number_repair.1 "O123456 WIDGET" "O123456" (by decide) (by decide)
  rw [h]
  decide

theorem C8_witness : (finalizeItem lineW8).qty = "1" := by
  have hq : pyInt lineW8.qty = some 3 := by decide
  have hp : pyFloat (removeDashes (cleanPrice lineW8)) = some 10 := pyFloat_1000
  have h := C8_qty_reset lineW8 3 10 hq (by norm_num) hp
  rw [h]
  have hcast : (((3 : ℤ) : ℚ)) = 3 := by norm_num
  rw [hcast, round2_third]
  rw [if_pos]
  have hx : (10 : ℚ) / 3 - 333 / 100 = 1 / 300 := by norm_num
  rw [hx, abs_of_pos (show (0 : ℚ) < 1 / 300 by norm_num)]
  norm_num

theorem C9_witness : post_processE [lineW10, lineW8] =
    Except.ok (post_process [lineW10, lineW8]) :=
  C9_never_raises [lineW10, lineW8]

theorem C10_witness :
    post_process [lineW10] = [finalizeItem lineW10] ∧
    (finalizeItem lineW10).tpd = false ∧ (finalizeItem lineW10).original_price = "" := by
  have h := C10_leading_discount [lineW10] lineW10 [] (by decide) (by decide)
  exact ⟨by rw [h.1]; rfl, h.2.1, h.2.2.1⟩
